import Mathlib

/-!
# Verification of the rtck batch token-validation service

Shallow embedding of `src/api/main.py`: a FastAPI service exposing one
endpoint `POST /api/check-tokens` that rate-limits clients by IP with a
fixed-window counter, caps batch size, and fans out per-token verification
calls to an external authority under a per-request `asyncio.Semaphore`.

Modelling choices:
* `time.time()` timestamps are natural numbers (seconds); Python's float
  subtraction `now - reset_time` compared against a positive constant agrees
  with truncated `Nat` subtraction whenever it matters (a negative float
  difference and a truncated-to-zero `Nat` difference both fail the
  `>= RATE_LIMIT_DURATION` test since the duration is positive).
* The process-global `TOKEN_BUCKETS` defaultdict is passed as explicit state
  (`BucketTable`, an association list keyed by client IP; the defaultdict's
  factory `{"count": 0, "reset_time": time.time()}` appears as the default
  bucket created at first access).
* The upstream HTTP exchange in `check_token` is a function from the posted
  refresh token to a `CallOutcome`: an HTTP response (status code plus parsed
  JSON object, or a parse error for a malformed body), a timeout exception, or
  any other exception carrying its message.
* `asyncio.gather(*tasks, return_exceptions=True)` yields, positionally per
  scheduled task, either the task's return value or the exception it raised;
  this is the `gatherOutcome : String → Except String TokenResult` parameter
  of `check_tokens`.  The nominal execution (tasks run `check_token`, which
  catches every exception) is `runBatchTask`.
* The 1%-probability `random.random() < 0.01` cleanup trigger is the boolean
  `doCleanup` parameter.
* The in-flight accounting of the per-request `asyncio.Semaphore` is a small
  step relation (`BatchStep`) over the in-flight/pending counters of all
  live requests.
-/

namespace Rtck

/-- `RATE_LIMIT_DURATION = 60`: the fixed rate-limit window, in seconds. -/
def RATE_LIMIT_DURATION : Nat := 60

/-- `MAX_REQUESTS = 1000`: maximum requests per IP per window. -/
def MAX_REQUESTS : Nat := 1000

/-- `MAX_TOKENS_PER_REQUEST = 5`: maximum tokens validated per request. -/
def MAX_TOKENS_PER_REQUEST : Nat := 5

/-- `MAX_CONCURRENT_CONNECTIONS = 5000`: capacity of the `asyncio.Semaphore`
created in `check_tokens`. -/
def MAX_CONCURRENT_CONNECTIONS : Nat := 5000

/-- Python's `str.strip()` with no argument: remove leading and trailing
whitespace characters. -/
def pyStrip (s : String) : String :=
  ⟨((s.data.dropWhile Char.isWhitespace).reverse.dropWhile
      Char.isWhitespace).reverse⟩

/-- One entry of `TOKEN_BUCKETS`: `{"count": ..., "reset_time": ...}`. -/
structure Bucket where
  count : Nat
  reset_time : Nat
deriving DecidableEq, Repr

/-- The `TOKEN_BUCKETS` defaultdict, as an association list from client IP to
its bucket. -/
abbrev BucketTable : Type := List (String × Bucket)

instance {ε α : Type} [DecidableEq ε] [DecidableEq α] :
    DecidableEq (Except ε α) := fun x y =>
  match x, y with
  | Except.ok a, Except.ok b =>
      if h : a = b then isTrue (by rw [h])
      else isFalse (by intro hc; cases hc; exact h rfl)
  | Except.ok _, Except.error _ => isFalse (by intro hc; cases hc)
  | Except.error _, Except.ok _ => isFalse (by intro hc; cases hc)
  | Except.error e, Except.error f =>
      if h : e = f then isTrue (by rw [h])
      else isFalse (by intro hc; cases hc; exact h rfl)

/-- Dictionary lookup in `TOKEN_BUCKETS` (first matching key). -/
def findBucket : BucketTable → String → Option Bucket
  | [], _ => none
  | (ip0, b) :: rest, ip => if ip0 = ip then some b else findBucket rest ip

/-- Store a bucket under a key: overwrite the first matching entry in place,
or append a fresh entry (the defaultdict inserts on first access). -/
def setBucket : BucketTable → String → Bucket → BucketTable
  | [], ip, b => [(ip, b)]
  | (ip0, b0) :: rest, ip, b =>
      if ip0 = ip then (ip, b) :: rest else (ip0, b0) :: setBucket rest ip b

/-- `TOKEN_BUCKETS[ip]`: the stored bucket, or the defaultdict factory's
`{"count": 0, "reset_time": time.time()}` for an unseen key. -/
def getBucket (table : BucketTable) (ip : String) (now : Nat) : Bucket :=
  (findBucket table ip).getD ⟨0, now⟩

/-- The per-bucket body of `is_rate_limited`: reset the counter when the
window has elapsed, reject without incrementing at the cap, otherwise
increment and admit.  Returns (limited?, updated bucket). -/
def bucket_step (b : Bucket) (now : Nat) : Bool × Bucket :=
  let b1 := if RATE_LIMIT_DURATION ≤ now - b.reset_time
            then { count := 0, reset_time := now } else b
  if MAX_REQUESTS ≤ b1.count then (true, b1)
  else (false, { b1 with count := b1.count + 1 })

/-- `is_rate_limited(ip)`, with `TOKEN_BUCKETS` and the clock explicit:
returns the boolean and the updated table. -/
def is_rate_limited (table : BucketTable) (ip : String) (now : Nat) :
    Bool × BucketTable :=
  let r := bucket_step (getBucket table ip now) now
  (r.1, setBucket table ip r.2)

/-- `cleanup_token_buckets()`: drop every bucket whose
`current_time - reset_time >= RATE_LIMIT_DURATION * 2`. -/
def cleanup_token_buckets (table : BucketTable) (now : Nat) : BucketTable :=
  List.filter (fun e : String × Bucket =>
    !(RATE_LIMIT_DURATION * 2 ≤ now - e.2.reset_time)) table

/-- The dict returned for a token by `check_token` / `check_tokens`. -/
structure TokenResult where
  status : String
  message : String
  access_token : Option String
  refresh_token : Option String
deriving DecidableEq, Repr

/-- `{"status": "invalid", "message": "Token为空", ...}`. -/
def emptyResult : TokenResult := ⟨"invalid", "Token为空", none, none⟩

/-- `{"status": "invalid", "message": "Token无效或已过期", ...}`. -/
def expiredResult : TokenResult := ⟨"invalid", "Token无效或已过期", none, none⟩

/-- `{"status": "invalid", "message": "请求超时", ...}` (httpx.TimeoutException). -/
def timeoutResult : TokenResult := ⟨"invalid", "请求超时", none, none⟩

/-- `{"status": "invalid", "message": f"Token验证失败: {e}", ...}` (any other
exception raised while posting or decoding the upstream response). -/
def verifyFailResult (e : String) : TokenResult :=
  ⟨"invalid", "Token验证失败: " ++ e, none, none⟩

/-- The valid result: carries the exchanged `access_token` and the (stripped)
refresh token that was verified. -/
def validResult (accessTok tok : String) : TokenResult :=
  ⟨"valid", "Token有效", some accessTok, some tok⟩

/-- `{"status": "invalid", "message": "Invalid token format", ...}`: what
`check_tokens` substitutes for an entry of `asyncio.gather`'s output that is
an exception object. -/
def gatherExceptionResult : TokenResult :=
  ⟨"invalid", "Invalid token format", none, none⟩

/-- Outcome of the outbound `client.post` to the external authority, as seen
by `check_token`'s exception handlers: a response whose body either parsed to
a JSON object (a string-to-string association list) or failed to parse with
some error message, a timeout, or some other raised exception. -/
inductive CallOutcome where
  | response (status_code : Nat) (body : Except String (List (String × String)))
  | timeout
  | failure (msg : String)
deriving DecidableEq, Repr

/-- `check_token(token, semaphore)` with the upstream exchange abstracted as
`call`.  Mirrors the source: strip; empty short-circuits; on HTTP 200 decode
the body and require an `"access_token"` field for validity; any other
status (the body is never decoded) is `Token无效或已过期`; a timeout is
`请求超时`; any other exception (including a malformed 200 body, whose
`.json()` raises) is `Token验证失败: {e}`. -/
def check_token (token : String) (call : String → CallOutcome) : TokenResult :=
  let t := pyStrip token
  if t = "" then emptyResult
  else
    match call t with
    | CallOutcome.timeout => timeoutResult
    | CallOutcome.failure e => verifyFailResult e
    | CallOutcome.response status body =>
        if status = 200 then
          match body with
          | Except.error e => verifyFailResult e
          | Except.ok data =>
              match data.lookup "access_token" with
              | some a => validResult a t
              | none => expiredResult
        else expiredResult

/-- HTTPException raised by the endpoint. -/
structure HTTPError where
  status_code : Nat
  detail : String
deriving DecidableEq, Repr

/-- `HTTPException(429, "请求过于频繁，请稍后再试")`. -/
def rateLimitError : HTTPError := ⟨429, "请求过于频繁，请稍后再试"⟩

/-- `HTTPException(400, f"每次请求最多验证 {MAX_TOKENS_PER_REQUEST} 个令牌")`. -/
def tooManyTokensError : HTTPError := ⟨400, "每次请求最多验证 5 个令牌"⟩

/-- The tokens for which `check_tokens` creates a verification task: the loop
`for token in tokens: if not token.strip(): continue;
tasks.append(create_task(check_token(token.strip(), semaphore)))`. -/
def scheduled_tokens (tokens : List String) : List String :=
  (tokens.filter (fun t => !(pyStrip t == ""))).map (fun t => pyStrip t)

/-- Post-processing of one `asyncio.gather` entry: an exception object becomes
`gatherExceptionResult`, a returned dict passes through. -/
def process_result : Except String TokenResult → TokenResult
  | Except.error _ => gatherExceptionResult
  | Except.ok r => r

/-- The `processed_results` loop over `asyncio.gather`'s output. -/
def process_results (rs : List (Except String TokenResult)) : List TokenResult :=
  rs.map process_result

/-- The table `check_tokens` works on after the probabilistic cleanup line:
`if random.random() < 0.01: cleanup_token_buckets()`. -/
def pre_table (table : BucketTable) (now : Nat) (doCleanup : Bool) : BucketTable :=
  if doCleanup then cleanup_token_buckets table now else table

/-- What the endpoint returns: the HTTP response (either an HTTPException or
the list of per-token dicts), the final `TOKEN_BUCKETS`, and the trace of
tokens for which a verification task was scheduled (one outbound call each). -/
structure BatchResponse where
  response : Except HTTPError (List TokenResult)
  buckets : BucketTable
  scheduled : List String
deriving Repr

/-- `check_tokens(request, token_request)`: probabilistic cleanup, rate-limit
check (429), batch-size check (400), then one task per non-empty stripped
token; `asyncio.gather(..., return_exceptions=True)` delivers `gatherOutcome`
per scheduled token, and exceptions among the results are mapped to
`gatherExceptionResult`.  `gather` returns results in task-creation order
regardless of completion order. -/
def check_tokens (table : BucketTable) (now : Nat) (doCleanup : Bool)
    (client_ip : String) (tokens : List String)
    (gatherOutcome : String → Except String TokenResult) : BatchResponse :=
  let table1 := pre_table table now doCleanup
  let rl := is_rate_limited table1 client_ip now
  if rl.1 then ⟨Except.error rateLimitError, rl.2, []⟩
  else if MAX_TOKENS_PER_REQUEST < tokens.length then
    ⟨Except.error tooManyTokensError, rl.2, []⟩
  else
    let sched := scheduled_tokens tokens
    ⟨Except.ok (process_results (sched.map gatherOutcome)), rl.2, sched⟩

/-- Nominal task execution: each created task runs `check_token`, which
catches every exception it can raise, so gather sees a returned dict. -/
def runBatchTask (call : String → CallOutcome) (t : String) :
    Except String TokenResult :=
  Except.ok (check_token t call)

/-- A sequence of `is_rate_limited` calls for one IP at the given times,
collecting the returned booleans and threading the table. -/
def admitSeq (table : BucketTable) (ip : String) :
    List Nat → List Bool × BucketTable
  | [] => ([], table)
  | t :: ts =>
      let r := is_rate_limited table ip t
      let rest := admitSeq r.2 ip ts
      (r.1 :: rest.1, rest.2)

/-- States of `TOKEN_BUCKETS` reachable from process start: the empty dict,
mutated only by `is_rate_limited` calls and `cleanup_token_buckets` sweeps
(the only two places the source touches the dict). -/
inductive TableReachable : BucketTable → Prop where
  | start : TableReachable []
  | rateCall {tab : BucketTable} (h : TableReachable tab) (ip : String)
      (now : Nat) : TableReachable (is_rate_limited tab ip now).2
  | sweep {tab : BucketTable} (h : TableReachable tab) (now : Nat) :
      TableReachable (cleanup_token_buckets tab now)

/-- Semaphore accounting for one live `check_tokens` invocation:
`gateCapacity` is the capacity of the `asyncio.Semaphore` it constructed,
`pending` the created tasks still waiting to enter `async with semaphore`,
`inFlight` the tasks currently holding a permit (outbound call in flight). -/
structure BatchState where
  gateCapacity : Nat
  pending : Nat
  inFlight : Nat
deriving DecidableEq, Repr

/-- Interleaving steps of the concurrent system: an accepted `check_tokens`
invocation spawns a fresh `Semaphore(MAX_CONCURRENT_CONNECTIONS)` with one
task per scheduled token (batch size already checked); a task acquires its
own batch's semaphore only while that semaphore has a free permit; a task
releases its permit when its call finishes. -/
inductive BatchStep : List BatchState → List BatchState → Prop where
  | spawn (s : List BatchState) (tokens : List String)
      (h : tokens.length ≤ MAX_TOKENS_PER_REQUEST) :
      BatchStep s
        (⟨MAX_CONCURRENT_CONNECTIONS, (scheduled_tokens tokens).length, 0⟩ :: s)
  | acquire (pre post : List BatchState) (b : BatchState)
      (hp : 0 < b.pending) (hc : b.inFlight < b.gateCapacity) :
      BatchStep (pre ++ b :: post)
        (pre ++ ⟨b.gateCapacity, b.pending - 1, b.inFlight + 1⟩ :: post)
  | release (pre post : List BatchState) (b : BatchState)
      (hf : 0 < b.inFlight) :
      BatchStep (pre ++ b :: post)
        (pre ++ ⟨b.gateCapacity, b.pending, b.inFlight - 1⟩ :: post)

/-- System states reachable from no live batches. -/
inductive BatchReachable : List BatchState → Prop where
  | start : BatchReachable []
  | step {s s1 : List BatchState} (h : BatchReachable s)
      (hs : BatchStep s s1) : BatchReachable s1

end Rtck

namespace Rtck

/-! ## Helper lemmas about the bucket table -/

theorem findBucket_setBucket_self (tab : BucketTable) (ip : String) (b : Bucket) :
    findBucket (setBucket tab ip b) ip = some b := by
  induction tab with
  | nil => simp [setBucket, findBucket]
  | cons hd tl ih =>
      obtain ⟨ip0, b0⟩ := hd
      by_cases h : ip0 = ip
      · simp [setBucket, findBucket, h]
      · simp [setBucket, findBucket, h, ih]

theorem setBucket_findBucket_same (tab : BucketTable) (ip : String) (b : Bucket)
    (h : findBucket tab ip = some b) : setBucket tab ip b = tab := by
  induction tab with
  | nil => simp [findBucket] at h
  | cons hd tl ih =>
      obtain ⟨ip0, b0⟩ := hd
      by_cases h0 : ip0 = ip
      · subst h0
        simp [findBucket] at h
        simp [setBucket, h]
      · rw [findBucket, if_neg h0] at h
        simp [setBucket, h0, ih h]

theorem setBucket_setBucket (tab : BucketTable) (ip : String) (b b1 : Bucket) :
    setBucket (setBucket tab ip b) ip b1 = setBucket tab ip b1 := by
  induction tab with
  | nil => simp [setBucket]
  | cons hd tl ih =>
      obtain ⟨ip0, b0⟩ := hd
      by_cases h : ip0 = ip
      · simp [setBucket, h]
      · simp [setBucket, h, ih]

theorem mem_setBucket (tab : BucketTable) (ip : String) (b : Bucket)
    (p : String × Bucket) (h : p ∈ setBucket tab ip b) :
    p ∈ tab ∨ p = (ip, b) := by
  induction tab with
  | nil =>
      simp [setBucket] at h
      simp [h]
  | cons hd tl ih =>
      obtain ⟨ip0, b0⟩ := hd
      by_cases h0 : ip0 = ip
      · simp [setBucket, h0] at h
        rcases h with h | h
        · right; simp [h]
        · left; simp [h]
      · simp [setBucket, h0] at h
        rcases h with h | h
        · left; simp [h]
        · rcases ih h with h1 | h1
          · left; simp [h1]
          · right; exact h1

theorem findBucket_mem (tab : BucketTable) (ip : String) (b : Bucket)
    (h : findBucket tab ip = some b) : (ip, b) ∈ tab := by
  induction tab with
  | nil => simp [findBucket] at h
  | cons hd tl ih =>
      obtain ⟨ip0, b0⟩ := hd
      by_cases h0 : ip0 = ip
      · subst h0
        simp [findBucket] at h
        simp [h]
      · rw [findBucket, if_neg h0] at h
        simp [ih h]

/-! ## Helper lemmas about the rate-limiter step -/

theorem bucket_step_reset (b : Bucket) (now : Nat)
    (h : RATE_LIMIT_DURATION ≤ now - b.reset_time) :
    bucket_step b now = (false, ⟨1, now⟩) := by
  simp [bucket_step, h, MAX_REQUESTS]

theorem bucket_step_at_cap (b : Bucket) (now : Nat)
    (hw : now - b.reset_time < RATE_LIMIT_DURATION)
    (hc : MAX_REQUESTS ≤ b.count) :
    bucket_step b now = (true, b) := by
  simp [bucket_step, Nat.not_le.mpr hw, hc]

theorem bucket_step_below_cap (b : Bucket) (now : Nat)
    (hw : now - b.reset_time < RATE_LIMIT_DURATION)
    (hc : b.count < MAX_REQUESTS) :
    bucket_step b now = (false, ⟨b.count + 1, b.reset_time⟩) := by
  simp [bucket_step, Nat.not_le.mpr hw, Nat.not_le.mpr hc]

theorem bucket_step_count_le (b : Bucket) (now : Nat)
    (hb : b.count ≤ MAX_REQUESTS) :
    (bucket_step b now).2.count ≤ MAX_REQUESTS := by
  by_cases hr : RATE_LIMIT_DURATION ≤ now - b.reset_time
  · simp [bucket_step_reset b now hr, MAX_REQUESTS]
  · rcases Nat.lt_or_ge b.count MAX_REQUESTS with hc | hc
    · simp [bucket_step_below_cap b now (Nat.not_le.mp hr) hc]
      omega
    · simp [bucket_step_at_cap b now (Nat.not_le.mp hr) hc]
      exact hb

theorem is_rate_limited_eq (tab : BucketTable) (ip : String) (now : Nat) :
    is_rate_limited tab ip now =
      ((bucket_step (getBucket tab ip now) now).1,
        setBucket tab ip (bucket_step (getBucket tab ip now) now).2) := rfl

theorem is_rate_limited_fresh (tab : BucketTable) (ip : String) (now : Nat)
    (hf : findBucket tab ip = none) :
    is_rate_limited tab ip now = (false, setBucket tab ip ⟨1, now⟩) := by
  have hb : getBucket tab ip now = ⟨0, now⟩ := by simp [getBucket, hf]
  rw [is_rate_limited_eq, hb,
    bucket_step_below_cap ⟨0, now⟩ now (by simp [RATE_LIMIT_DURATION])
      (by simp [MAX_REQUESTS])]

theorem admitSeq_within_window (ip : String) (t0 : Nat) (ts : List Nat) :
    ∀ (k : Nat) (tab : BucketTable),
      findBucket tab ip = some ⟨k, t0⟩ →
      (∀ t ∈ ts, t - t0 < RATE_LIMIT_DURATION) →
      k + ts.length ≤ MAX_REQUESTS →
      admitSeq tab ip ts =
        (List.replicate ts.length false, setBucket tab ip ⟨k + ts.length, t0⟩) := by
  induction ts with
  | nil =>
      intro k tab hf _ _
      simp [admitSeq, setBucket_findBucket_same tab ip ⟨k, t0⟩ hf]
  | cons t ts ih =>
      intro k tab hf hw hk
      have hwt : t - t0 < RATE_LIMIT_DURATION := hw t (List.mem_cons_self t ts)
      have hkc : k < MAX_REQUESTS := by
        simp only [List.length_cons] at hk
        omega
      have hb : getBucket tab ip t = ⟨k, t0⟩ := by simp [getBucket, hf]
      have hstep : is_rate_limited tab ip t
          = (false, setBucket tab ip ⟨k + 1, t0⟩) := by
        rw [is_rate_limited_eq, hb, bucket_step_below_cap ⟨k, t0⟩ t hwt hkc]
      have ihr := ih (k + 1) (setBucket tab ip ⟨k + 1, t0⟩)
        (findBucket_setBucket_self tab ip ⟨k + 1, t0⟩)
        (fun x hx => hw x (List.mem_cons_of_mem t hx))
        (by simp only [List.length_cons] at hk ⊢; omega)
      have harith : k + 1 + ts.length = k + (ts.length + 1) := by omega
      simp only [admitSeq, hstep, ihr, setBucket_setBucket, List.length_cons,
        List.replicate_succ, harith]

end Rtck

namespace Rtck

/-! ## C4: the fixed-window rate limiter -/

/-- **C4**: `is_rate_limited` implements a fixed-window counter: when the
elapsed time since the bucket's window start is at least
`RATE_LIMIT_DURATION` the count is reset to 0 and the window start advanced
to `now` (and the call is admitted, incrementing to 1); at the cap the call
is rejected without incrementing; below the cap the count is incremented and
the call admitted.  Consequently, starting from an unseen identity, exactly
`MAX_REQUESTS` calls within one window are all admitted, the next call in the
window is rejected, and a call after the window has elapsed is admitted. -/
theorem c4_fixed_window_rate_limiter
    (b : Bucket) (now : Nat) (ip : String) (t0 t1 t2 : Nat) (ts : List Nat)
    (hlen : ts.length + 1 = MAX_REQUESTS)
    (hts : ∀ t ∈ ts, t - t0 < RATE_LIMIT_DURATION)
    (ht1 : t1 - t0 < RATE_LIMIT_DURATION)
    (ht2 : RATE_LIMIT_DURATION ≤ t2 - t0) :
    (RATE_LIMIT_DURATION ≤ now - b.reset_time →
        bucket_step b now = (false, ⟨1, now⟩)) ∧
    (now - b.reset_time < RATE_LIMIT_DURATION → MAX_REQUESTS ≤ b.count →
        bucket_step b now = (true, b)) ∧
    (now - b.reset_time < RATE_LIMIT_DURATION → b.count < MAX_REQUESTS →
        bucket_step b now = (false, ⟨b.count + 1, b.reset_time⟩)) ∧
    (admitSeq [] ip (t0 :: ts)).1 = List.replicate MAX_REQUESTS false ∧
    (is_rate_limited (admitSeq [] ip (t0 :: ts)).2 ip t1).1 = true ∧
    (is_rate_limited
        (is_rate_limited (admitSeq [] ip (t0 :: ts)).2 ip t1).2 ip t2).1
      = false := by
  have hfirst : is_rate_limited [] ip t0 = (false, [(ip, ⟨1, t0⟩)]) :=
    is_rate_limited_fresh [] ip t0 rfl
  have hfind : findBucket [(ip, ⟨1, t0⟩)] ip = some ⟨1, t0⟩ := by
    simp [findBucket]
  have hrest := admitSeq_within_window ip t0 ts 1 [(ip, ⟨1, t0⟩)] hfind hts
    (by omega)
  have hseq : admitSeq [] ip (t0 :: ts)
      = (false :: List.replicate ts.length false,
          setBucket [(ip, ⟨1, t0⟩)] ip ⟨1 + ts.length, t0⟩) := by
    simp only [admitSeq, hfirst, hrest]
  have hset : setBucket [(ip, ⟨1, t0⟩)] ip ⟨1 + ts.length, t0⟩
      = [(ip, ⟨1 + ts.length, t0⟩)] := by
    simp [setBucket]
  have hcount : 1 + ts.length = MAX_REQUESTS := by omega
  have htabF : (admitSeq [] ip (t0 :: ts)).2 = [(ip, ⟨MAX_REQUESTS, t0⟩)] := by
    rw [hseq]
    simp only [hcount] at hset
    simp only [hcount, hset]
  have hbF : getBucket [(ip, ⟨MAX_REQUESTS, t0⟩)] ip t1 = ⟨MAX_REQUESTS, t0⟩ := by
    simp [getBucket, findBucket]
  have hrej : is_rate_limited [(ip, ⟨MAX_REQUESTS, t0⟩)] ip t1
      = (true, [(ip, ⟨MAX_REQUESTS, t0⟩)]) := by
    rw [is_rate_limited_eq, hbF,
      bucket_step_at_cap ⟨MAX_REQUESTS, t0⟩ t1 ht1 (Nat.le_refl _)]
    simp [setBucket]
  refine ⟨fun h => bucket_step_reset b now h,
    fun hw hc => bucket_step_at_cap b now hw hc,
    fun hw hc => bucket_step_below_cap b now hw hc, ?_, ?_, ?_⟩
  · rw [hseq]
    have : MAX_REQUESTS = ts.length + 1 := hlen.symm
    rw [this, List.replicate_succ]
  · rw [htabF, hrej]
  · rw [htabF, hrej]
    have hbF2 : getBucket [(ip, ⟨MAX_REQUESTS, t0⟩)] ip t2 = ⟨MAX_REQUESTS, t0⟩ := by
      simp [getBucket, findBucket]
    rw [is_rate_limited_eq, hbF2,
      bucket_step_reset ⟨MAX_REQUESTS, t0⟩ t2 ht2]

/-- Witness for C4 at a concrete identity and clock: 1000 calls at time 0 are
all admitted, a 1001st call at time 5 is rejected, a call at time 60 is
admitted again; and a fresh-window step resets-and-admits. -/
theorem c4_fixed_window_rate_limiter_witness :
    bucket_step ⟨0, 0⟩ 60 = (false, ⟨1, 60⟩) ∧
    (admitSeq [] "c" (0 :: List.replicate 999 0)).1
      = List.replicate MAX_REQUESTS false ∧
    (is_rate_limited (admitSeq [] "c" (0 :: List.replicate 999 0)).2 "c" 5).1
      = true ∧
    (is_rate_limited
        (is_rate_limited
          (admitSeq [] "c" (0 :: List.replicate 999 0)).2 "c" 5).2 "c" 60).1
      = false := by
  have h := c4_fixed_window_rate_limiter ⟨0, 0⟩ 60 "c" 0 5 60
    (List.replicate 999 0)
    (by simp only [List.length_replicate]; decide)
    (by
      intro t ht
      rw [List.eq_of_mem_replicate ht]
      decide)
    (by decide) (by decide)
  exact ⟨h.1 (by decide), h.2.2.2.1, h.2.2.2.2.1, h.2.2.2.2.2⟩

/-! ## C8: the reclamation sweep -/

/-- **C8**: `cleanup_token_buckets` keeps exactly the entries whose window
start is stale by strictly less than `2 * RATE_LIMIT_DURATION` and removes
exactly the entries stale by at least that much; kept entries (count and
window start) are the untouched original pairs.  The sweep is what
`check_tokens` runs on its 1%-probability branch. -/
theorem c8_cleanup_removes_exactly_stale (table : BucketTable) (now : Nat)
    (ip : String) (b : Bucket) :
    ((ip, b) ∈ cleanup_token_buckets table now ↔
      (ip, b) ∈ table ∧ now - b.reset_time < RATE_LIMIT_DURATION * 2) ∧
    pre_table table now true = cleanup_token_buckets table now := by
  constructor
  · simp [cleanup_token_buckets, List.mem_filter, Nat.not_le, Nat.lt_irrefl]
  · rfl

/-- Witness for C8: a bucket refreshed 10 seconds ago survives the sweep. -/
theorem c8_cleanup_removes_exactly_stale_witness :
    ("a", Bucket.mk 0 10) ∈ cleanup_token_buckets [("a", Bucket.mk 0 10)] 20 :=
  (c8_cleanup_removes_exactly_stale [("a", Bucket.mk 0 10)] 20 "a"
    (Bucket.mk 0 10)).1.mpr ⟨by decide, by decide⟩

/-! ## C10: bucket counts never exceed the cap -/

/-- **C10**: in every reachable state of `TOKEN_BUCKETS`, every bucket's count
is at most `MAX_REQUESTS`; moreover a rejected admission call leaves the
bucket exactly unchanged, and a call that increments the count only does so
from a count strictly below the cap. -/
theorem c10_bucket_count_invariant (tab : BucketTable)
    (h : TableReachable tab) :
    (∀ ip b, (ip, b) ∈ tab → b.count ≤ MAX_REQUESTS) ∧
    (∀ b now, (bucket_step b now).1 = true → (bucket_step b now).2 = b) ∧
    (∀ b now, (bucket_step b now).2.count = b.count + 1 →
        b.count < MAX_REQUESTS) := by
  refine ⟨?_, ?_, ?_⟩
  · induction h with
    | start => intro ip b hb; simp at hb
    | @rateCall tab1 h ip now ih =>
        intro ip0 b0 hb0
        rcases mem_setBucket tab1 ip (bucket_step (getBucket tab1 ip now) now).2
          (ip0, b0) hb0 with hmem | heq
        · exact ih ip0 b0 hmem
        · have hb0e : b0 = (bucket_step (getBucket tab1 ip now) now).2 :=
            congrArg Prod.snd heq
          rw [hb0e]
          apply bucket_step_count_le
          unfold getBucket
          cases hf : findBucket tab1 ip with
          | none => simp [MAX_REQUESTS]
          | some bf =>
              simp only [Option.getD_some]
              exact ih ip bf (findBucket_mem tab1 ip bf hf)
    | sweep h now ih =>
        intro ip0 b0 hb0
        exact ih ip0 b0 (List.mem_of_mem_filter hb0)
  · intro b now hlim
    by_cases hr : RATE_LIMIT_DURATION ≤ now - b.reset_time
    · rw [bucket_step_reset b now hr] at hlim
      simp at hlim
    · rcases Nat.lt_or_ge b.count MAX_REQUESTS with hc | hc
      · rw [bucket_step_below_cap b now (Nat.not_le.mp hr) hc] at hlim
        simp at hlim
      · rw [bucket_step_at_cap b now (Nat.not_le.mp hr) hc]
  · intro b now hinc
    by_cases hr : RATE_LIMIT_DURATION ≤ now - b.reset_time
    · rw [bucket_step_reset b now hr] at hinc
      simp at hinc
      have hM : (0 : Nat) < MAX_REQUESTS := by decide
      omega
    · rcases Nat.lt_or_ge b.count MAX_REQUESTS with hc | hc
      · exact hc
      · rw [bucket_step_at_cap b now (Nat.not_le.mp hr) hc] at hinc
        simp at hinc

/-- Witness for C10: the table after one admission from the empty table is
reachable and its single bucket's count is within the cap. -/
theorem c10_bucket_count_invariant_witness :
    (Bucket.mk 1 0).count ≤ MAX_REQUESTS :=
  (c10_bucket_count_invariant (is_rate_limited [] "c" 0).2
    (TableReachable.rateCall TableReachable.start "c" 0)).1
    "c" (Bucket.mk 1 0) (by decide)

end Rtck

namespace Rtck

/-! ## C6: validity is exactly HTTP 200 with an access_token field -/

theorem string_append_ne_empty (s t : String) (h : s ≠ "") : s ++ t ≠ "" := by
  intro hc
  apply h
  have hd : s.data ++ t.data = ([] : List Char) := congrArg String.data hc
  have hs : s.data = [] := (List.append_eq_nil.mp hd).1
  cases s
  simp_all [String.ext_iff]

/-- **C6**: for a non-empty (after stripping) token, `check_token` returns a
`valid` result if and only if the authority answered HTTP 200 with a parsed
body containing an `"access_token"` field; the valid result carries exactly
that exchanged credential and the stripped token; every other outcome is
tagged `invalid` with a non-empty reason message. -/
theorem c6_valid_iff_200_with_access_token (token : String)
    (call : String → CallOutcome) (ht : pyStrip token ≠ "") :
    ((check_token token call).status = "valid" ↔
      ∃ data a, call (pyStrip token) = CallOutcome.response 200 (Except.ok data) ∧
        data.lookup "access_token" = some a) ∧
    (∀ data a,
      call (pyStrip token) = CallOutcome.response 200 (Except.ok data) →
      data.lookup "access_token" = some a →
      check_token token call = validResult a (pyStrip token)) ∧
    ((check_token token call).status ≠ "valid" →
      (check_token token call).status = "invalid" ∧
      (check_token token call).message ≠ "") := by
  rcases hc : call (pyStrip token) with ⟨status, body⟩ | _ | msg
  case timeout =>
    have hck : check_token token call = timeoutResult := by
      simp [check_token, ht, hc]
    refine ⟨?_, ?_, ?_⟩
    · rw [hck]
      simp [timeoutResult]
    · intro data a h1 _
      simp at h1
    · intro _
      rw [hck]
      simp [timeoutResult]
  case failure =>
    have hck : check_token token call = verifyFailResult msg := by
      simp [check_token, ht, hc]
    refine ⟨?_, ?_, ?_⟩
    · rw [hck]
      simp [verifyFailResult]
    · intro data a h1 _
      simp at h1
    · intro _
      rw [hck]
      refine ⟨rfl, ?_⟩
      exact string_append_ne_empty "Token验证失败: " msg (by decide)
  case response =>
    by_cases hs : status = 200
    · subst hs
      rcases body with e | data
      · have hck : check_token token call = verifyFailResult e := by
          simp [check_token, ht, hc]
        refine ⟨?_, ?_, ?_⟩
        · rw [hck]
          simp [verifyFailResult]
        · intro data a h1 _
          simp at h1
        · intro _
          rw [hck]
          refine ⟨rfl, ?_⟩
          exact string_append_ne_empty "Token验证失败: " e (by decide)
      · rcases hl : data.lookup "access_token" with _ | a
        · have hck : check_token token call = expiredResult := by
            simp [check_token, ht, hc, hl]
          refine ⟨?_, ?_, ?_⟩
          · rw [hck]
            simp [expiredResult, hl]
          · intro data1 a1 h1 h2
            simp at h1
            subst h1
            rw [hl] at h2
            simp at h2
          · intro _
            rw [hck]
            simp [expiredResult]
        · have hck : check_token token call = validResult a (pyStrip token) := by
            simp [check_token, ht, hc, hl]
          refine ⟨?_, ?_, ?_⟩
          · rw [hck]
            exact ⟨fun _ => ⟨data, a, rfl, hl⟩, fun _ => rfl⟩
          · intro data1 a1 h1 h2
            simp at h1
            subst h1
            rw [hl] at h2
            simp at h2
            subst h2
            rw [hck]
          · intro hne
            rw [hck] at hne
            exact absurd rfl hne
    · have hck : check_token token call = expiredResult := by
        simp [check_token, ht, hc, hs]
      refine ⟨?_, ?_, ?_⟩
      · rw [hck]
        simp [expiredResult, hs]
      · intro data a h1 _
        simp at h1
        exact absurd h1.1 hs
      · intro _
        rw [hck]
        simp [expiredResult]

/-- Witness for C6: a 200 response carrying an access_token yields the valid
result with that credential and the stripped token. -/
theorem c6_valid_iff_200_with_access_token_witness :
    check_token " x "
        (fun _ => CallOutcome.response 200 (Except.ok [("access_token", "A")]))
      = validResult "A" (pyStrip " x ") :=
  (c6_valid_iff_200_with_access_token " x "
      (fun _ => CallOutcome.response 200 (Except.ok [("access_token", "A")]))
      (by decide)).2.1
    [("access_token", "A")] "A" rfl (by decide)

end Rtck

namespace Rtck

/-! ## C3: failures are data, never batch-level errors -/

/-- **C3**: every failure mode of a single verification is mapped to an
`invalid` result with a distinguishing reason (timeout, transport/protocol
failure, non-200 status, malformed 200 body), never an exception; and on the
accepted path the batch response is always `Except.ok` with exactly one
result per scheduled token, whatever the per-task outcomes are — a task
entry that is an exception object degrades to the per-token
`gatherExceptionResult`, so the result sequence is never partially filled or
truncated relative to the scheduled work. -/
theorem c3_failures_are_data (t : String) (call : String → CallOutcome)
    (ht : pyStrip t ≠ "")
    (table : BucketTable) (now : Nat) (doCleanup : Bool) (ip : String)
    (tokens : List String)
    (gatherOutcome : String → Except String TokenResult)
    (hrl : (is_rate_limited (pre_table table now doCleanup) ip now).1 = false)
    (hsz : tokens.length ≤ MAX_TOKENS_PER_REQUEST) :
    (call (pyStrip t) = CallOutcome.timeout →
        check_token t call = timeoutResult) ∧
    (∀ e, call (pyStrip t) = CallOutcome.failure e →
        check_token t call = verifyFailResult e) ∧
    (∀ status body, call (pyStrip t) = CallOutcome.response status body →
        status ≠ 200 → check_token t call = expiredResult) ∧
    (∀ e, call (pyStrip t) = CallOutcome.response 200 (Except.error e) →
        check_token t call = verifyFailResult e) ∧
    (check_tokens table now doCleanup ip tokens gatherOutcome).response
      = Except.ok ((scheduled_tokens tokens).map
          (fun s => process_result (gatherOutcome s))) ∧
    (∀ out,
      (check_tokens table now doCleanup ip tokens gatherOutcome).response
          = Except.ok out → out.length = (scheduled_tokens tokens).length) ∧
    (∀ s e, gatherOutcome s = Except.error e →
        process_result (gatherOutcome s) = gatherExceptionResult) := by
  have hbatch : (check_tokens table now doCleanup ip tokens gatherOutcome).response
      = Except.ok ((scheduled_tokens tokens).map
          (fun s => process_result (gatherOutcome s))) := by
    simp [check_tokens, hrl, Nat.not_lt.mpr hsz, process_results, process_result]
  refine ⟨?_, ?_, ?_, ?_, hbatch, ?_, ?_⟩
  · intro hc
    simp [check_token, ht, hc]
  · intro e hc
    simp [check_token, ht, hc]
  · intro status body hc hs
    simp [check_token, ht, hc, hs]
  · intro e hc
    simp [check_token, ht, hc]
  · intro out hout
    rw [hbatch] at hout
    have hoe := (Except.ok.injEq _ _).mp hout.symm
    rw [hoe, List.length_map]
  · intro s e he
    rw [he]
    rfl

/-- Witness for C3: a timed-out verification yields the timeout result, and a
batch whose only task entry is an exception still returns a full-length list
with the per-token invalid placeholder. -/
theorem c3_failures_are_data_witness :
    check_token "a" (fun _ => CallOutcome.timeout) = timeoutResult ∧
    (check_tokens [] 0 false "c" ["b"]
        (fun _ => Except.error "boom")).response
      = Except.ok [gatherExceptionResult] := by
  have h := c3_failures_are_data "a" (fun _ => CallOutcome.timeout) (by decide)
    [] 0 false "c" ["b"] (fun _ => Except.error "boom") (by decide) (by decide)
  refine ⟨h.1 rfl, ?_⟩
  rw [h.2.2.2.2.1]
  decide

/-! ## C7: admission rejections are distinct, immediate, and schedule nothing -/

/-- **C7**: a rate-limited client gets the 429 error and an oversized batch
(from a non-limited client) gets the 400 error; the two errors are distinct;
in both cases no verification task is scheduled. -/
theorem c7_admission_rejections (table : BucketTable) (now : Nat)
    (doCleanup : Bool) (ip : String) (tokens : List String)
    (gatherOutcome : String → Except String TokenResult) :
    ((is_rate_limited (pre_table table now doCleanup) ip now).1 = true →
      (check_tokens table now doCleanup ip tokens gatherOutcome).response
          = Except.error rateLimitError ∧
      (check_tokens table now doCleanup ip tokens gatherOutcome).scheduled
          = []) ∧
    ((is_rate_limited (pre_table table now doCleanup) ip now).1 = false →
      MAX_TOKENS_PER_REQUEST < tokens.length →
      (check_tokens table now doCleanup ip tokens gatherOutcome).response
          = Except.error tooManyTokensError ∧
      (check_tokens table now doCleanup ip tokens gatherOutcome).scheduled
          = []) ∧
    rateLimitError ≠ tooManyTokensError := by
  refine ⟨?_, ?_, by decide⟩
  · intro hrl
    constructor <;> simp [check_tokens, hrl]
  · intro hrl hsz
    constructor <;> simp [check_tokens, hrl, hsz]

/-- Witness for C7: a client at the cap is rejected with 429; an oversized
batch from a fresh client is rejected with 400. -/
theorem c7_admission_rejections_witness :
    (check_tokens [("c", ⟨1000, 0⟩)] 0 false "c" ["a"]
        (fun _ => Except.error "e")).response = Except.error rateLimitError ∧
    (check_tokens [] 0 false "c" ["1", "2", "3", "4", "5", "6"]
        (fun _ => Except.error "e")).response
      = Except.error tooManyTokensError :=
  ⟨((c7_admission_rejections [("c", ⟨1000, 0⟩)] 0 false "c" ["a"]
      (fun _ => Except.error "e")).1 (by decide)).1,
   ((c7_admission_rejections [] 0 false "c" ["1", "2", "3", "4", "5", "6"]
      (fun _ => Except.error "e")).2.1 (by decide) (by decide)).1⟩

/-! ## C9: the rate check runs before the size check -/

/-- **C9**: a batch over the size cap is rejected with the 400 error, but the
rate-limit check has already run: the rejected request still increments the
client's bucket count (and creates a count-1 bucket for an unseen identity),
consuming one unit of rate allowance although no validation work happens. -/
theorem c9_size_rejected_consumes_allowance (table : BucketTable) (now : Nat)
    (doCleanup : Bool) (ip : String) (tokens : List String)
    (gatherOutcome : String → Except String TokenResult)
    (hsz : MAX_TOKENS_PER_REQUEST < tokens.length) :
    (findBucket (pre_table table now doCleanup) ip = none →
      (check_tokens table now doCleanup ip tokens gatherOutcome).response
          = Except.error tooManyTokensError ∧
      findBucket
          (check_tokens table now doCleanup ip tokens gatherOutcome).buckets ip
        = some ⟨1, now⟩) ∧
    (∀ k t0, findBucket (pre_table table now doCleanup) ip = some ⟨k, t0⟩ →
      now - t0 < RATE_LIMIT_DURATION → k < MAX_REQUESTS →
      (check_tokens table now doCleanup ip tokens gatherOutcome).response
          = Except.error tooManyTokensError ∧
      findBucket
          (check_tokens table now doCleanup ip tokens gatherOutcome).buckets ip
        = some ⟨k + 1, t0⟩) := by
  constructor
  · intro hf
    have hrl := is_rate_limited_fresh (pre_table table now doCleanup) ip now hf
    constructor
    · simp [check_tokens, hrl, hsz]
    · simp [check_tokens, hrl, hsz, findBucket_setBucket_self]
  · intro k t0 hf hw hk
    have hb : getBucket (pre_table table now doCleanup) ip now = ⟨k, t0⟩ := by
      simp [getBucket, hf]
    have hrl : is_rate_limited (pre_table table now doCleanup) ip now
        = (false, setBucket (pre_table table now doCleanup) ip ⟨k + 1, t0⟩) := by
      rw [is_rate_limited_eq, hb, bucket_step_below_cap ⟨k, t0⟩ now hw hk]
    constructor
    · simp [check_tokens, hrl, hsz]
    · simp [check_tokens, hrl, hsz, findBucket_setBucket_self]

/-- Witness for C9: an oversized batch from an unseen identity is rejected
with 400 yet creates a count-1 bucket for that identity. -/
theorem c9_size_rejected_consumes_allowance_witness :
    (check_tokens [] 0 false "c" ["1", "2", "3", "4", "5", "6"]
        (fun _ => Except.error "e")).response = Except.error tooManyTokensError ∧
    findBucket (check_tokens [] 0 false "c" ["1", "2", "3", "4", "5", "6"]
        (fun _ => Except.error "e")).buckets "c" = some ⟨1, 0⟩ :=
  (c9_size_rejected_consumes_allowance [] 0 false "c"
      ["1", "2", "3", "4", "5", "6"] (fun _ => Except.error "e")
      (by decide)).1 rfl

end Rtck

namespace Rtck

/-! ## C1: output order and length -/

/-- **C1** counterexample: the claim "`len(output) == len(input)` and
`output[i]` corresponds to `input[i]`" fails on the code.  For the accepted
batch `["", "a"]` the empty token is skipped by `continue` rather than mapped
to an `invalid{empty}` entry, so the output has length 1 while the input has
length 2. -/
theorem c1_counterexample :
    (check_tokens [] 0 false "c" ["", "a"]
        (runBatchTask (fun _ => CallOutcome.timeout))).response
      = Except.ok [timeoutResult] ∧
    ([timeoutResult] : List TokenResult).length
      ≠ (["", "a"] : List String).length :=
  ⟨by decide, by decide⟩

/-- **C1** (amended): for every accepted batch, the output has exactly one
result per *non-empty* (after stripping) input token, in input order: the
response is the positional image of the scheduled tokens, independent of
completion order (`asyncio.gather` returns results in task-creation order),
and `output[i]` is the result for the i-th non-empty token.  Empty and
whitespace-only tokens contribute no output entry, so the output can be
shorter than the input. -/
theorem c1_results_align_with_nonempty_tokens (table : BucketTable)
    (now : Nat) (doCleanup : Bool) (ip : String) (tokens : List String)
    (gatherOutcome : String → Except String TokenResult)
    (hrl : (is_rate_limited (pre_table table now doCleanup) ip now).1 = false)
    (hsz : tokens.length ≤ MAX_TOKENS_PER_REQUEST) :
    (check_tokens table now doCleanup ip tokens gatherOutcome).response
      = Except.ok ((scheduled_tokens tokens).map
          (fun s => process_result (gatherOutcome s))) ∧
    (∀ out,
      (check_tokens table now doCleanup ip tokens gatherOutcome).response
          = Except.ok out →
      out.length
          = (tokens.filter (fun t => !(pyStrip t == ""))).length ∧
      ∀ i (hi : i < out.length) (hj : i < (scheduled_tokens tokens).length),
        out.get ⟨i, hi⟩
          = process_result (gatherOutcome ((scheduled_tokens tokens).get ⟨i, hj⟩))) := by
  have hbatch : (check_tokens table now doCleanup ip tokens gatherOutcome).response
      = Except.ok ((scheduled_tokens tokens).map
          (fun s => process_result (gatherOutcome s))) := by
    simp [check_tokens, hrl, Nat.not_lt.mpr hsz, process_results, process_result]
  refine ⟨hbatch, ?_⟩
  intro out hout
  rw [hbatch] at hout
  have hoe := (Except.ok.injEq _ _).mp hout.symm
  subst hoe
  constructor
  · simp [scheduled_tokens]
  · intro i hi hj
    simp [List.getElem_map]

/-- Witness for C1 (amended): a two-token batch with one blank token yields
the single result for the non-blank token. -/
theorem c1_results_align_with_nonempty_tokens_witness :
    (check_tokens [] 0 false "c" [" ", "a"]
        (runBatchTask (fun _ => CallOutcome.timeout))).response
      = Except.ok ((scheduled_tokens [" ", "a"]).map
          (fun s => process_result
            (runBatchTask (fun _ => CallOutcome.timeout) s))) :=
  (c1_results_align_with_nonempty_tokens [] 0 false "c" [" ", "a"]
      (runBatchTask (fun _ => CallOutcome.timeout)) (by decide) (by decide)).1

/-! ## C2: empty tokens -/

/-- **C2** counterexample: the claim "the batch output contains an
invalid-with-reason-empty result at that token's position" fails on the
code.  For the accepted batch `[" "]` (one whitespace-only token) the output
is the empty list — there is no entry at position 0 at all (the token is
skipped, not mapped to `invalid{empty}`); consistently, no call is scheduled
for it. -/
theorem c2_counterexample :
    (check_tokens [] 0 false "c" [" "]
        (runBatchTask (fun _ => CallOutcome.timeout))).response
      = Except.ok ([] : List TokenResult) ∧
    (check_tokens [] 0 false "c" [" "]
        (runBatchTask (fun _ => CallOutcome.timeout))).scheduled = [] :=
  ⟨by decide, by decide⟩

/-- **C2** (amended): empty and whitespace-only tokens are never scheduled:
the scheduled-call list is exactly the stripped non-empty tokens (so no
outbound call and no semaphore slot is consumed for an empty token — only
scheduled tokens occupy `BatchStep` units), it contains no empty string, and
the accepted batch's output has exactly one entry per non-empty token and
none for empty ones. -/
theorem c2_empty_tokens_never_scheduled (table : BucketTable) (now : Nat)
    (doCleanup : Bool) (ip : String) (tokens : List String)
    (gatherOutcome : String → Except String TokenResult)
    (hrl : (is_rate_limited (pre_table table now doCleanup) ip now).1 = false)
    (hsz : tokens.length ≤ MAX_TOKENS_PER_REQUEST) :
    (check_tokens table now doCleanup ip tokens gatherOutcome).scheduled
      = scheduled_tokens tokens ∧
    (∀ s, s ∈ scheduled_tokens tokens → s ≠ "") ∧
    (∀ t, t ∈ tokens → pyStrip t = "" → pyStrip t ∉ scheduled_tokens tokens) ∧
    (∀ out,
      (check_tokens table now doCleanup ip tokens gatherOutcome).response
          = Except.ok out →
      out.length = (tokens.filter (fun t => !(pyStrip t == ""))).length) := by
  have hsched : ∀ s, s ∈ scheduled_tokens tokens → s ≠ "" := by
    intro s hs
    simp only [scheduled_tokens, List.mem_map, List.mem_filter] at hs
    obtain ⟨t, ⟨_, hne⟩, hst⟩ := hs
    rw [← hst]
    simpa using hne
  refine ⟨?_, hsched, ?_, ?_⟩
  · simp [check_tokens, hrl, Nat.not_lt.mpr hsz]
  · intro t _ hemp hmem
    exact hsched (pyStrip t) hmem hemp
  · intro out hout
    have hbatch : (check_tokens table now doCleanup ip tokens gatherOutcome).response
        = Except.ok ((scheduled_tokens tokens).map
            (fun s => process_result (gatherOutcome s))) := by
      simp [check_tokens, hrl, Nat.not_lt.mpr hsz, process_results, process_result]
    rw [hbatch] at hout
    have hoe := (Except.ok.injEq _ _).mp hout.symm
    subst hoe
    simp [scheduled_tokens]

/-- Witness for C2 (amended): in the batch `[" ", "a"]` only `"a"` is
scheduled. -/
theorem c2_empty_tokens_never_scheduled_witness :
    (check_tokens [] 0 false "c" [" ", "a"]
        (runBatchTask (fun _ => CallOutcome.timeout))).scheduled
      = scheduled_tokens [" ", "a"] :=
  (c2_empty_tokens_never_scheduled [] 0 false "c" [" ", "a"]
      (runBatchTask (fun _ => CallOutcome.timeout)) (by decide) (by decide)).1

end Rtck

namespace Rtck

/-! ## C5: the concurrency gate is per-batch, not global -/

theorem scheduled_tokens_length_le (tokens : List String) :
    (scheduled_tokens tokens).length ≤ tokens.length := by
  simp only [scheduled_tokens, List.length_map]
  exact List.length_filter_le _ tokens

/-- **C5** (amended): in every reachable state of the system, every live
batch's semaphore has capacity `MAX_CONCURRENT_CONNECTIONS` and at most that
many of *its own* calls are in flight — indeed at most
`MAX_TOKENS_PER_REQUEST` of them, since the gate is created per request and
only that request's tasks share it.  The ceiling is per-batch, not a global
one shared across concurrent batches. -/
theorem c5_per_batch_gate_invariant (s : List BatchState)
    (h : BatchReachable s) :
    ∀ b ∈ s, b.gateCapacity = MAX_CONCURRENT_CONNECTIONS ∧
      b.inFlight ≤ b.gateCapacity ∧
      b.inFlight + b.pending ≤ MAX_TOKENS_PER_REQUEST := by
  induction h with
  | start => intro b hb; simp at hb
  | @step s0 s1 h0 hs ih =>
      cases hs with
      | spawn s0 tokens hlen =>
          intro b hb
          rcases List.mem_cons.mp hb with hb | hb
          · subst hb
            refine ⟨rfl, Nat.zero_le _, ?_⟩
            simp only [Nat.zero_add]
            exact Nat.le_trans (scheduled_tokens_length_le tokens) hlen
          · exact ih b hb
      | acquire pre post b0 hp hc =>
          intro b hb
          simp only [List.mem_append, List.mem_cons] at hb
          rcases hb with hb | hb | hb
          · exact ih b (by simp [hb])
          · have hold := ih b0 (by simp)
            subst hb
            refine ⟨hold.1, ?_, ?_⟩
            · show b0.inFlight + 1 ≤ b0.gateCapacity
              omega
            · show b0.inFlight + 1 + (b0.pending - 1) ≤ MAX_TOKENS_PER_REQUEST
              have := hold.2.2
              omega
          · exact ih b (by simp [hb])
      | release pre post b0 hf =>
          intro b hb
          simp only [List.mem_append, List.mem_cons] at hb
          rcases hb with hb | hb | hb
          · exact ih b (by simp [hb])
          · have hold := ih b0 (by simp)
            subst hb
            refine ⟨hold.1, ?_, ?_⟩
            · show b0.inFlight - 1 ≤ b0.gateCapacity
              have := hold.2.1
              omega
            · show b0.inFlight - 1 + b0.pending ≤ MAX_TOKENS_PER_REQUEST
              have := hold.2.2
              omega
          · exact ih b (by simp [hb])

/-- Witness for C5 (amended): the state right after one accepted five-token
batch spawned its tasks is reachable, and its batch satisfies the per-batch
bounds. -/
theorem c5_per_batch_gate_invariant_witness :
    (BatchState.mk MAX_CONCURRENT_CONNECTIONS 5 0).gateCapacity
        = MAX_CONCURRENT_CONNECTIONS ∧
    (BatchState.mk MAX_CONCURRENT_CONNECTIONS 5 0).inFlight
        ≤ (BatchState.mk MAX_CONCURRENT_CONNECTIONS 5 0).gateCapacity ∧
    (BatchState.mk MAX_CONCURRENT_CONNECTIONS 5 0).inFlight
        + (BatchState.mk MAX_CONCURRENT_CONNECTIONS 5 0).pending
      ≤ MAX_TOKENS_PER_REQUEST :=
  c5_per_batch_gate_invariant
    [⟨MAX_CONCURRENT_CONNECTIONS,
        (scheduled_tokens ["a", "b", "c", "d", "e"]).length, 0⟩]
    (BatchReachable.step BatchReachable.start
      (BatchStep.spawn [] ["a", "b", "c", "d", "e"] (by decide)))
    (BatchState.mk MAX_CONCURRENT_CONNECTIONS 5 0) (by decide)

/-- A system of `n` batches, each with all five of its calls in flight, is
reachable: spawn a five-token batch and let its five tasks acquire the fresh
semaphore, `n` times. -/
theorem replicate_full_batches_reachable : ∀ n : Nat,
    BatchReachable
      (List.replicate n ⟨MAX_CONCURRENT_CONNECTIONS, 0, 5⟩) := by
  intro n
  induction n with
  | zero => exact BatchReachable.start
  | succ n ih =>
      have h0 : BatchReachable
          (⟨MAX_CONCURRENT_CONNECTIONS,
              (scheduled_tokens ["a", "b", "c", "d", "e"]).length, 0⟩
            :: List.replicate n ⟨MAX_CONCURRENT_CONNECTIONS, 0, 5⟩) :=
        BatchReachable.step ih
          (BatchStep.spawn _ ["a", "b", "c", "d", "e"] (by decide))
      have hlen : (scheduled_tokens ["a", "b", "c", "d", "e"]).length = 5 := by
        decide
      rw [hlen] at h0
      have h1 : BatchReachable
          (⟨MAX_CONCURRENT_CONNECTIONS, 4, 1⟩
            :: List.replicate n ⟨MAX_CONCURRENT_CONNECTIONS, 0, 5⟩) :=
        BatchReachable.step h0
          (BatchStep.acquire [] _ ⟨MAX_CONCURRENT_CONNECTIONS, 5, 0⟩
            (by decide) (by decide))
      have h2 : BatchReachable
          (⟨MAX_CONCURRENT_CONNECTIONS, 3, 2⟩
            :: List.replicate n ⟨MAX_CONCURRENT_CONNECTIONS, 0, 5⟩) :=
        BatchReachable.step h1
          (BatchStep.acquire [] _ ⟨MAX_CONCURRENT_CONNECTIONS, 4, 1⟩
            (by decide) (by decide))
      have h3 : BatchReachable
          (⟨MAX_CONCURRENT_CONNECTIONS, 2, 3⟩
            :: List.replicate n ⟨MAX_CONCURRENT_CONNECTIONS, 0, 5⟩) :=
        BatchReachable.step h2
          (BatchStep.acquire [] _ ⟨MAX_CONCURRENT_CONNECTIONS, 3, 2⟩
            (by decide) (by decide))
      have h4 : BatchReachable
          (⟨MAX_CONCURRENT_CONNECTIONS, 1, 4⟩
            :: List.replicate n ⟨MAX_CONCURRENT_CONNECTIONS, 0, 5⟩) :=
        BatchReachable.step h3
          (BatchStep.acquire [] _ ⟨MAX_CONCURRENT_CONNECTIONS, 2, 3⟩
            (by decide) (by decide))
      have h5 : BatchReachable
          (⟨MAX_CONCURRENT_CONNECTIONS, 0, 5⟩
            :: List.replicate n ⟨MAX_CONCURRENT_CONNECTIONS, 0, 5⟩) :=
        BatchReachable.step h4
          (BatchStep.acquire [] _ ⟨MAX_CONCURRENT_CONNECTIONS, 1, 4⟩
            (by decide) (by decide))
      rw [List.replicate_succ]
      exact h5

/-- **C5** counterexample: the claim that the gate is "a single global
ceiling shared across all concurrent batches" with at most
`concurrencyLimit` calls in flight at once fails on the code: the semaphore
is constructed per request inside `check_tokens`, so with 1001 concurrent
five-token batches the reachable total of in-flight outbound calls is 5005,
exceeding `MAX_CONCURRENT_CONNECTIONS = 5000`. -/
theorem c5_counterexample :
    BatchReachable
      (List.replicate 1001
        (⟨MAX_CONCURRENT_CONNECTIONS, 0, 5⟩ : BatchState)) ∧
    MAX_CONCURRENT_CONNECTIONS <
      ((List.replicate 1001
          (⟨MAX_CONCURRENT_CONNECTIONS, 0, 5⟩ : BatchState)).map
        BatchState.inFlight).sum := by
  refine ⟨replicate_full_batches_reachable 1001, ?_⟩
  rw [List.map_replicate, List.sum_replicate, smul_eq_mul]
  decide

end Rtck
